import Mathlib

/-!
Verification of the data-transformation core of the ESG portfolio dashboard
(`project.py`).

The program is a thin pipeline over pandas DataFrames:
  * `load_all_data`     : inner-merge the S&P constituents table with the ESG
                          score table on `Symbol`, sort by `Symbol`;
  * `clean_data`        : drop rows in excluded GICS sub-industries, drop the
                          administrative columns `SEC filings`/`CIK`/`ticker_name`,
                          drop rows with ESG score not strictly above the
                          threshold, then drop all-empty columns;
  * `load_price_data`   : (after the external download) drop ticker columns that
                          are entirely missing;
  * `run_ef_model`      : dispatch on the chosen objective to the external CLA
                          solver and surface the non-zero weights.

A DataFrame is embedded as a list of column names together with rows that are
association lists from column name to an optional value (`none` models NaN).
Operations that pandas makes raise `KeyError` are embedded in `Except String`.
-/

/-- A scalar cell value: pandas cells in this program are strings or numbers.
`NaN`/missing is represented by `Option.none` at the `Cell` level. -/
inductive Val where
  | str (s : String)
  | num (q : ℚ)
deriving DecidableEq, Repr

/-- A cell: `none` models a missing value (NaN). -/
abbrev Cell := Option Val

/-- A row, as an association list from column name to cell. -/
abbrev Row := List (String × Cell)

/-- A DataFrame: the column labels plus the rows.  Column labels are kept
separately so that column-existence errors (pandas `KeyError`) are modelled
even on empty frames. -/
structure DataFrame where
  cols : List String
  rows : List Row
deriving DecidableEq, Repr

/-- Cell lookup by column name: `row[c]`; a missing key behaves like NaN. -/
def cellOf (r : Row) (c : String) : Cell :=
  (List.lookup c r).join

/-- Keep only the cells of a row whose column name satisfies `q`
(used for pandas `drop(columns=...)` and `dropna(axis=1)`). -/
def Row.filterKeys (q : String → Bool) (r : Row) : Row :=
  r.filter (fun p => q p.1)

/-- `~df['GICS Sub-Industry'].isin(selected)` on one row: the row is kept
unless its sub-industry cell is a string belonging to `selected`
(a NaN cell is not `isin` anything, so the row is kept). -/
def keepCategory (selected : List String) (r : Row) : Bool :=
  match cellOf r "GICS Sub-Industry" with
  | some (Val.str s) => !selected.contains s
  | _ => true

/-- `df['esg_score'] > minScore` on one row: NaN compares false, so only rows
with a numeric score strictly above the threshold are kept. -/
def keepScore (minScore : ℚ) (r : Row) : Bool :=
  match cellOf r "esg_score" with
  | some (Val.num q) => decide (minScore < q)
  | _ => false

/-- `combined_df[~combined_df['GICS Sub-Industry'].isin(selected)]`:
raises `KeyError` when the column is absent. -/
def filterByCategory (df : DataFrame) (selected : List String) :
    Except String DataFrame :=
  if df.cols.contains "GICS Sub-Industry" then
    .ok ⟨df.cols, df.rows.filter (keepCategory selected)⟩
  else
    .error "KeyError: GICS Sub-Industry"

/-- `df.drop(columns=names)`: raises `KeyError` unless every listed column is
present; otherwise removes exactly those columns. -/
def dropColumns (df : DataFrame) (names : List String) :
    Except String DataFrame :=
  if names.all (fun n => df.cols.contains n) then
    .ok ⟨df.cols.filter (fun c => !names.contains c),
         df.rows.map (Row.filterKeys (fun c => !names.contains c))⟩
  else
    .error "KeyError: drop"

/-- `df[df['esg_score'] > minScore]`: raises `KeyError` when the column is
absent. -/
def filterByScore (df : DataFrame) (minScore : ℚ) :
    Except String DataFrame :=
  if df.cols.contains "esg_score" then
    .ok ⟨df.cols, df.rows.filter (keepScore minScore)⟩
  else
    .error "KeyError: esg_score"

/-- A column survives `dropna(axis=1, how='all')` iff some row has a value in
it (pandas keeps a column iff its non-NA count is positive). -/
def keepCol (rows : List Row) (c : String) : Bool :=
  rows.any (fun r => (cellOf r c).isSome)

/-- `df.dropna(axis=1, how='all')`: drop the columns in which every row is
missing. -/
def dropAllNaCols (df : DataFrame) : DataFrame :=
  ⟨df.cols.filter (keepCol df.rows),
   df.rows.map (Row.filterKeys (keepCol df.rows))⟩

/-- The administrative columns dropped by `clean_data` (project.py line 81). -/
def adminCols : List String := ["SEC filings", "CIK", "ticker_name"]

/-- `clean_data(combined_df, selected_sector, min_esg_score)` (project.py
lines 78-90): filter out the excluded sub-industries, drop the administrative
columns, keep rows with `esg_score > min_esg_score`, drop all-empty columns,
reset the index (a no-op here).  Each pandas `KeyError` propagates. -/
def clean_data (df : DataFrame) (selected : List String) (minScore : ℚ) :
    Except String DataFrame :=
  match filterByCategory df selected with
  | .error e => .error e
  | .ok d1 =>
    match dropColumns d1 adminCols with
    | .error e => .error e
    | .ok d2 =>
      match filterByScore d2 minScore with
      | .error e => .error e
      | .ok d3 => .ok (dropAllNaCols d3)

section RowLemmas

/-- Looking up a key that the key-filter keeps is unchanged by the filter. -/
theorem lookup_filterKeys_pos (q : String → Bool) (c : String) (hq : q c = true)
    (r : Row) : List.lookup c (Row.filterKeys q r) = List.lookup c r := by
  unfold Row.filterKeys
  induction r with
  | nil => rfl
  | cons p r ih =>
    obtain ⟨k, v⟩ := p
    by_cases hck : (c == k) = true
    · have hk : q k = true := by
        have hc : c = k := eq_of_beq hck
        rw [← hc]; exact hq
      simp [List.filter_cons, hk, List.lookup_cons, hck]
    · have hck' : (c == k) = false := by simpa using hck
      by_cases hk : q k = true
      · simp only [List.filter_cons, hk, if_true, List.lookup_cons, hck']
        exact ih
      · have hk' : q k = false := by simpa using hk
        simp only [List.filter_cons, hk', Bool.false_eq_true, if_false]
        rw [ih, List.lookup_cons]
        simp [hck']

/-- Looking up a key that the key-filter removes finds nothing. -/
theorem lookup_filterKeys_neg (q : String → Bool) (c : String) (hq : q c = false)
    (r : Row) : List.lookup c (Row.filterKeys q r) = none := by
  unfold Row.filterKeys
  induction r with
  | nil => rfl
  | cons p r ih =>
    obtain ⟨k, v⟩ := p
    by_cases hk : q k = true
    · have hck : (c == k) = false := by
        by_contra hcc
        have hc : c = k := eq_of_beq (by simpa using hcc)
        rw [← hc] at hk
        rw [hq] at hk
        cases hk
      simp only [List.filter_cons, hk, if_true, List.lookup_cons, hck]
      exact ih
    · have hk' : q k = false := by simpa using hk
      simp only [List.filter_cons, hk', Bool.false_eq_true, if_false]
      exact ih

/-- Cell view of `lookup_filterKeys_pos`. -/
theorem cellOf_filterKeys_pos (q : String → Bool) (c : String) (hq : q c = true)
    (r : Row) : cellOf (Row.filterKeys q r) c = cellOf r c := by
  unfold cellOf
  rw [lookup_filterKeys_pos q c hq r]

/-- Cell view of `lookup_filterKeys_neg`. -/
theorem cellOf_filterKeys_neg (q : String → Bool) (c : String) (hq : q c = false)
    (r : Row) : cellOf (Row.filterKeys q r) c = none := by
  unfold cellOf
  rw [lookup_filterKeys_neg q c hq r]
  rfl

/-- A present cell of a key-filtered row was present, with the same value,
before the filter. -/
theorem cellOf_filterKeys_some (q : String → Bool) (c : String) (r : Row)
    (v : Val) (h : cellOf (Row.filterKeys q r) c = some v) :
    cellOf r c = some v := by
  by_cases hq : q c = true
  · rw [cellOf_filterKeys_pos q c hq r] at h
    exact h
  · have hq' : q c = false := by simpa using hq
    rw [cellOf_filterKeys_neg q c hq' r] at h
    cases h

end RowLemmas

section CleanDataLemmas

/-- Split a successful `clean_data` run into its four pandas stages. -/
theorem clean_data_ok_elim (df : DataFrame) (S : List String) (t : ℚ)
    (df' : DataFrame) (h : clean_data df S t = .ok df') :
    ∃ d1 d2 d3, filterByCategory df S = .ok d1 ∧
      dropColumns d1 adminCols = .ok d2 ∧
      filterByScore d2 t = .ok d3 ∧
      df' = dropAllNaCols d3 := by
  unfold clean_data at h
  split at h
  · cases h
  next d1 h1 =>
    split at h
    · cases h
    next d2 h2 =>
      split at h
      · cases h
      next d3 h3 =>
        exact ⟨d1, d2, d3, h1, h2, h3, ((Except.ok.injEq _ _).mp h).symm⟩

/-- Every row surviving `clean_data` still passes the score predicate. -/
theorem clean_data_row_score (df : DataFrame) (S : List String) (t : ℚ)
    (df' : DataFrame) (h : clean_data df S t = .ok df') :
    ∀ r ∈ df'.rows, keepScore t r = true := by
  obtain ⟨d1, d2, d3, _, _, h3, hdf⟩ := clean_data_ok_elim df S t df' h
  intro r hr
  rw [hdf] at hr
  simp only [dropAllNaCols, List.mem_map] at hr
  obtain ⟨r₀, hr₀, hrfk⟩ := hr
  -- r₀ passed the score filter
  have hsc : keepScore t r₀ = true := by
    unfold filterByScore at h3
    by_cases hc : d2.cols.contains "esg_score" = true
    · rw [if_pos hc] at h3
      have : d3 = ⟨d2.cols, d2.rows.filter (keepScore t)⟩ :=
        ((Except.ok.injEq _ _).mp h3).symm
      rw [this] at hr₀
      exact (List.mem_filter.mp hr₀).2
    · rw [if_neg hc] at h3; cases h3
  -- its score cell is therefore present, so the column is not dropped
  obtain ⟨q, hq, _⟩ : ∃ q, cellOf r₀ "esg_score" = some (Val.num q) ∧ t < q := by
    unfold keepScore at hsc
    cases hcell : cellOf r₀ "esg_score" with
    | none => rw [hcell] at hsc; cases hsc
    | some v =>
      cases v with
      | str s => rw [hcell] at hsc; cases hsc
      | num q =>
        rw [hcell] at hsc
        exact ⟨q, rfl, of_decide_eq_true hsc⟩
  have hkeep : keepCol d3.rows "esg_score" = true := by
    unfold keepCol
    rw [List.any_eq_true]
    exact ⟨r₀, hr₀, by rw [hq]; rfl⟩
  rw [← hrfk]
  unfold keepScore
  rw [cellOf_filterKeys_pos _ _ hkeep]
  unfold keepScore at hsc
  exact hsc

/-- Every row surviving `clean_data` still passes the category predicate. -/
theorem clean_data_row_category (df : DataFrame) (S : List String) (t : ℚ)
    (df' : DataFrame) (h : clean_data df S t = .ok df') :
    ∀ r ∈ df'.rows, keepCategory S r = true := by
  obtain ⟨d1, d2, d3, h1, h2, h3, hdf⟩ := clean_data_ok_elim df S t df' h
  intro r hr
  rw [hdf] at hr
  simp only [dropAllNaCols, List.mem_map] at hr
  obtain ⟨r₀, hr₀, hrfk⟩ := hr
  -- r₀ came (through the score filter) from a dropColumns image of a row that
  -- passed the category filter
  have hr₀d2 : r₀ ∈ d2.rows := by
    unfold filterByScore at h3
    by_cases hc : d2.cols.contains "esg_score" = true
    · rw [if_pos hc] at h3
      have : d3 = ⟨d2.cols, d2.rows.filter (keepScore t)⟩ :=
        ((Except.ok.injEq _ _).mp h3).symm
      rw [this] at hr₀
      exact (List.mem_filter.mp hr₀).1
    · rw [if_neg hc] at h3; cases h3
  obtain ⟨r₁, hr₁, hr₁eq⟩ :
      ∃ r₁ ∈ d1.rows,
        Row.filterKeys (fun c => !adminCols.contains c) r₁ = r₀ := by
    unfold dropColumns at h2
    by_cases hc : adminCols.all (fun n => d1.cols.contains n) = true
    · rw [if_pos hc] at h2
      have hd2 : d2 = ⟨d1.cols.filter (fun c => !adminCols.contains c),
          d1.rows.map (Row.filterKeys (fun c => !adminCols.contains c))⟩ :=
        ((Except.ok.injEq _ _).mp h2).symm
      rw [hd2] at hr₀d2
      simpa using hr₀d2
    · rw [if_neg hc] at h2; cases h2
  have hcat : keepCategory S r₁ = true := by
    unfold filterByCategory at h1
    by_cases hc : df.cols.contains "GICS Sub-Industry" = true
    · rw [if_pos hc] at h1
      have : d1 = ⟨df.cols, df.rows.filter (keepCategory S)⟩ :=
        ((Except.ok.injEq _ _).mp h1).symm
      rw [this] at hr₁
      exact (List.mem_filter.mp hr₁).2
    · rw [if_neg hc] at h1; cases h1
  -- transport the predicate along the two key-filters
  rw [← hrfk]
  unfold keepCategory
  cases hcell :
      cellOf (Row.filterKeys (keepCol d3.rows) r₀) "GICS Sub-Industry" with
  | none => rfl
  | some v =>
    cases v with
    | num q => rfl
    | str s =>
      have hc₀ : cellOf r₀ "GICS Sub-Industry" = some (Val.str s) :=
        cellOf_filterKeys_some _ _ _ _ hcell
      have hc₁ : cellOf r₁ "GICS Sub-Industry" = some (Val.str s) := by
        rw [← hr₁eq] at hc₀
        exact cellOf_filterKeys_some _ _ _ _ hc₀
      unfold keepCategory at hcat
      rw [hc₁] at hcat
      exact hcat

end CleanDataLemmas

section Examples

/-- Example constituent A: sub-industry `X`, ESG score 90, with the
administrative columns a freshly loaded universe carries. -/
def exRowA : Row :=
  [("Symbol", some (Val.str "A")), ("Security", some (Val.str "Alpha Corp")),
   ("GICS Sub-Industry", some (Val.str "X")),
   ("SEC filings", some (Val.str "reports")), ("CIK", some (Val.num 11)),
   ("ticker_name", some (Val.str "A US")), ("esg_score", some (Val.num 90))]

/-- Example constituent B: sub-industry `Y`, ESG score 70. -/
def exRowB : Row :=
  [("Symbol", some (Val.str "B")), ("Security", some (Val.str "Beta Corp")),
   ("GICS Sub-Industry", some (Val.str "Y")),
   ("SEC filings", some (Val.str "reports")), ("CIK", some (Val.num 22)),
   ("ticker_name", some (Val.str "B US")), ("esg_score", some (Val.num 70))]

/-- Example universe {A, B}. -/
def exU : DataFrame :=
  ⟨["Symbol", "Security", "GICS Sub-Industry", "SEC filings", "CIK",
    "ticker_name", "esg_score"], [exRowA, exRowB]⟩

/-- Row A after `clean_data` dropped the administrative columns. -/
def exRowA2 : Row :=
  [("Symbol", some (Val.str "A")), ("Security", some (Val.str "Alpha Corp")),
   ("GICS Sub-Industry", some (Val.str "X")), ("esg_score", some (Val.num 90))]

/-- `clean_data exU ["Y"] 80`: only constituent A survives. -/
def exOut : DataFrame :=
  ⟨["Symbol", "Security", "GICS Sub-Industry", "esg_score"], [exRowA2]⟩

example : clean_data exU ["Y"] 80 = .ok exOut := by rfl

example : clean_data exOut ["Y"] 80 = .error "KeyError: drop" := by rfl

end Examples

section Claims1to3

/-- C1 counterexample: `clean_data` is not idempotent as stated.  On the
universe `exU` (excluded = {Y}, threshold 80) the first run succeeds and
returns `exOut`, but running `clean_data` on its own output fails with a
`KeyError` — the administrative columns it unconditionally drops are already
gone — so no second-run output (let alone an equal one) exists. -/
theorem clean_data_not_idempotent :
    ¬ (∀ (df : DataFrame) (S : List String) (t : ℚ) (df' : DataFrame),
        clean_data df S t = .ok df' →
        ∃ df'', clean_data df' S t = .ok df'' ∧ df''.rows = df'.rows) := by
  intro hclaim
  obtain ⟨df'', hok, _⟩ := hclaim exU ["Y"] 80 exOut (by rfl)
  have herr : clean_data exOut ["Y"] 80 = .error "KeyError: drop" := by rfl
  rw [herr] at hok
  cases hok

/-- C1 (amended): the row-level filtering of `clean_data` is idempotent: every
row of a successful output already passes both the category predicate and the
score predicate, so re-applying the row filters with the same parameters
returns the same set of rows.  (Re-running `clean_data` itself fails because
the administrative columns were already dropped.) -/
theorem clean_data_row_filter_idempotent (df : DataFrame) (S : List String)
    (t : ℚ) (df' : DataFrame) (h : clean_data df S t = .ok df') :
    df'.rows.filter (fun r => keepCategory S r && keepScore t r) = df'.rows := by
  rw [List.filter_eq_self]
  intro r hr
  rw [Bool.and_eq_true]
  exact ⟨clean_data_row_category df S t df' h r hr,
         clean_data_row_score df S t df' h r hr⟩

/-- Witness for the amended C1, on the concrete universe `exU`. -/
theorem clean_data_row_filter_idempotent_witness :
    exOut.rows.filter (fun r => keepCategory ["Y"] r && keepScore 80 r)
      = exOut.rows :=
  clean_data_row_filter_idempotent exU ["Y"] 80 exOut (by rfl)

/-- C2: for every input universe and threshold `t`, every record that
`clean_data` outputs has an ESG score cell holding a number strictly greater
than `t`. -/
theorem clean_data_score_strict (df : DataFrame) (S : List String) (t : ℚ)
    (df' : DataFrame) (h : clean_data df S t = .ok df') :
    ∀ r ∈ df'.rows, ∃ q : ℚ, cellOf r "esg_score" = some (Val.num q) ∧ t < q := by
  intro r hr
  have hs := clean_data_row_score df S t df' h r hr
  unfold keepScore at hs
  cases hcell : cellOf r "esg_score" with
  | none => rw [hcell] at hs; cases hs
  | some v =>
    cases v with
    | str s => rw [hcell] at hs; cases hs
    | num q =>
      rw [hcell] at hs
      exact ⟨q, rfl, of_decide_eq_true hs⟩

/-- Witness for C2: the surviving row of the concrete example has score
90 > 80. -/
theorem clean_data_score_strict_witness :
    ∃ q : ℚ, cellOf exRowA2 "esg_score" = some (Val.num q) ∧ (80 : ℚ) < q :=
  clean_data_score_strict exU ["Y"] 80 exOut (by rfl) exRowA2 (by
    simp [exOut])

/-- C3: no record output by `clean_data` has its GICS sub-industry in the
excluded set; and on the example universe {A: score 90, cat X; B: score 70,
cat Y} with excluded = {Y} and threshold 80 the filtered universe is exactly
{A} (the frame `exOut`). -/
theorem clean_data_excludes_categories :
    (∀ (df : DataFrame) (S : List String) (t : ℚ) (df' : DataFrame),
        clean_data df S t = .ok df' →
        ∀ r ∈ df'.rows, ∀ s : String,
          cellOf r "GICS Sub-Industry" = some (Val.str s) → s ∉ S)
    ∧ clean_data exU ["Y"] 80 = .ok exOut := by
  constructor
  · intro df S t df' h r hr s hs
    have hc := clean_data_row_category df S t df' h r hr
    unfold keepCategory at hc
    rw [hs] at hc
    simpa using hc
  · rfl

/-- Witness for C3's universally quantified part: the surviving row's
category `X` is not in the excluded set {Y}. -/
theorem clean_data_excludes_categories_witness : "X" ∉ (["Y"] : List String) :=
  clean_data_excludes_categories.1 exU ["Y"] 80 exOut (by rfl) exRowA2
    (by simp [exOut]) "X" (by rfl)

end Claims1to3

section Claims9and10

/-- C9: `clean_data` is deterministic — equal inputs give equal outputs.  In
the source no pandas operation used by `clean_data` is in-place (boolean-mask
selection, `drop`, `dropna` and `reset_index` all return fresh frames), so the
function is pure and is embedded here as a pure function. -/
theorem clean_data_deterministic :
    ∀ (df₁ df₂ : DataFrame) (S₁ S₂ : List String) (t₁ t₂ : ℚ),
      df₁ = df₂ → S₁ = S₂ → t₁ = t₂ →
      clean_data df₁ S₁ t₁ = clean_data df₂ S₂ t₂ := by
  intro df₁ df₂ S₁ S₂ t₁ t₂ h1 h2 h3
  rw [h1, h2, h3]

/-- Witness for C9 at the concrete example inputs. -/
theorem clean_data_deterministic_witness :
    clean_data exU ["Y"] 80 = clean_data exU ["Y"] 80 :=
  clean_data_deterministic exU exU ["Y"] ["Y"] 80 80 rfl rfl rfl

/-- C10: `clean_data` fails (with a propagated `KeyError`) whenever one of
the unconditionally dropped columns `SEC filings`, `CIK`, `ticker_name` is
absent from the input, and succeeds only on inputs that contain all three. -/
theorem clean_data_requires_admin_columns :
    ∀ (df : DataFrame) (S : List String) (t : ℚ),
      ((∃ c ∈ adminCols, c ∉ df.cols) → ∃ e, clean_data df S t = .error e)
      ∧ (∀ df', clean_data df S t = .ok df' → ∀ c ∈ adminCols, c ∈ df.cols) := by
  intro df S t
  constructor
  · rintro ⟨c, hc, hnc⟩
    unfold clean_data
    cases h1 : filterByCategory df S with
    | error e => exact ⟨e, rfl⟩
    | ok d1 =>
      dsimp only
      have hd1 : d1.cols = df.cols := by
        unfold filterByCategory at h1
        by_cases hg : df.cols.contains "GICS Sub-Industry" = true
        · rw [if_pos hg] at h1
          have hval := ((Except.ok.injEq _ _).mp h1).symm
          rw [hval]
        · rw [if_neg hg] at h1; cases h1
      have hall : (adminCols.all (fun n => d1.cols.contains n)) = false := by
        rw [List.all_eq_false]
        refine ⟨c, hc, ?_⟩
        rw [hd1]
        simpa using hnc
      unfold dropColumns
      rw [if_neg (by rw [hall]; exact Bool.false_ne_true)]
      exact ⟨"KeyError: drop", rfl⟩
  · intro df' h c hc
    obtain ⟨d1, d2, d3, h1, h2, h3, _⟩ := clean_data_ok_elim df S t df' h
    have hd1 : d1.cols = df.cols := by
      unfold filterByCategory at h1
      by_cases hg : df.cols.contains "GICS Sub-Industry" = true
      · rw [if_pos hg] at h1
        have hval := ((Except.ok.injEq _ _).mp h1).symm
        rw [hval]
      · rw [if_neg hg] at h1; cases h1
    unfold dropColumns at h2
    by_cases hall : (adminCols.all (fun n => d1.cols.contains n)) = true
    · rw [List.all_eq_true] at hall
      have := hall c hc
      rw [hd1] at this
      simpa using this
    · rw [if_neg hall] at h2; cases h2

/-- Witness for C10: the example universe contains all three administrative
columns (first conjunct applied to `exOut`, which is missing them; second
conjunct applied to the successful run on `exU`). -/
theorem clean_data_requires_admin_columns_witness :
    (∃ e, clean_data exOut ["Y"] 80 = .error e) ∧ "CIK" ∈ exU.cols :=
  ⟨(clean_data_requires_admin_columns exOut ["Y"] 80).1
      ⟨"CIK", by simp [adminCols], by simp [exOut]⟩,
   (clean_data_requires_admin_columns exU ["Y"] 80).2 exOut (by rfl) "CIK"
      (by simp [adminCols])⟩

end Claims9and10

section PriceLoader

/-- `load_price_data` (project.py lines 100-110): the network download itself
is external (yfinance); given the provider's adjusted-close table — dates as
rows, tickers as columns — the in-repo logic drops every ticker column that is
entirely missing: `data['Adj Close'].dropna(axis=1, how='all')`. -/
def load_price_data (adjClose : DataFrame) : DataFrame :=
  dropAllNaCols adjClose

/-- Example price table: tickers A, B, C over two dates, C entirely missing. -/
def ptABC : DataFrame :=
  ⟨["A", "B", "C"],
   [[("A", some (Val.num 10)), ("B", none), ("C", none)],
    [("A", some (Val.num 11)), ("B", some (Val.num 20)), ("C", none)]]⟩

/-- `ptABC` with the all-missing ticker C dropped. -/
def ptAB : DataFrame :=
  ⟨["A", "B"],
   [[("A", some (Val.num 10)), ("B", none)],
    [("A", some (Val.num 11)), ("B", some (Val.num 20))]]⟩

/-- C4: `load_price_data` keeps exactly the ticker columns with at least one
available value: a column survives iff it was a column of the provider's
table and some row holds a value in it; on the example table with tickers
A, B, C where C is entirely missing, the output has only columns A and B. -/
theorem load_price_data_drops_all_missing :
    (∀ (pt : DataFrame) (c : String),
        c ∈ (load_price_data pt).cols ↔
          c ∈ pt.cols ∧ ∃ r ∈ pt.rows, (cellOf r c).isSome = true)
    ∧ load_price_data ptABC = ptAB := by
  constructor
  · intro pt c
    unfold load_price_data dropAllNaCols keepCol
    simp only [List.mem_filter, List.any_eq_true]
  · rfl

/-- Witness for C4 at the concrete example: ticker A survives because it has
a value. -/
theorem load_price_data_drops_all_missing_witness :
    "A" ∈ (load_price_data ptABC).cols ↔
      "A" ∈ ptABC.cols ∧ ∃ r ∈ ptABC.rows, (cellOf r "A").isSome = true :=
  load_price_data_drops_all_missing.1 ptABC "A"

end PriceLoader

section UniverseLoader

/-- One merged row of `pd.merge(left, right, on=key)`: the left row followed
by the right row without its copy of the join key (pandas keeps a single
`Symbol` column). -/
def mergeRow (key : String) (l rr : Row) : Row :=
  l ++ rr.filter (fun p => !(p.1 == key))

/-- The inner-join pairing of `pd.merge(..., how='inner')`: every left row is
combined with every right row carrying the same join-key cell. -/
def joinRows (key : String) : List Row → List Row → List Row
  | [], _ => []
  | l :: ls, rs =>
      ((rs.filter (fun rr => decide (cellOf rr key = cellOf l key))).map
        (mergeRow key l)) ++ joinRows key ls rs

/-- `pd.merge(left, right, on=key)`: raises `KeyError` if either frame lacks
the key column; otherwise the inner join, with the left columns followed by
the right columns other than the key. -/
def mergeOn (left right : DataFrame) (key : String) :
    Except String DataFrame :=
  if left.cols.contains key && right.cols.contains key then
    .ok ⟨left.cols ++ right.cols.filter (fun c => !(c == key)),
         joinRows key left.rows right.rows⟩
  else
    .error "KeyError: merge"

/-- Lexicographic comparison of strings by code point, on the underlying
character lists (how Python compares the ticker strings). -/
def strLeAux : List Char → List Char → Bool
  | [], _ => true
  | _ :: _, [] => false
  | a :: as, b :: bs =>
      if a.toNat < b.toNat then true
      else if b.toNat < a.toNat then false
      else strLeAux as bs

/-- Lexicographic string comparison by code point. -/
def strLe (a b : String) : Bool :=
  strLeAux a.data b.data

/-- `sort_values` comparison on scalar values: strings by lexicographic
order, numbers by numeric order (the `Symbol` column holds strings, so the
cross-type cases are arbitrary but fixed). -/
def valLe : Val → Val → Bool
  | Val.str a, Val.str b => strLe a b
  | Val.num a, Val.num b => decide (a ≤ b)
  | Val.str _, Val.num _ => true
  | Val.num _, Val.str _ => false

/-- `sort_values` comparison on cells: missing values (NaN) sort last. -/
def cellLe : Cell → Cell → Bool
  | some a, some b => valLe a b
  | some _, none => true
  | none, some _ => false
  | none, none => true

/-- The row order used by `sort_values(by="Symbol")`. -/
def symLe (a b : Row) : Prop :=
  cellLe (cellOf a "Symbol") (cellOf b "Symbol") = true

instance : DecidableRel symLe := fun a b => by
  unfold symLe
  infer_instance

/-- `df.sort_values(by="Symbol")` (a stable sort; `reset_index(drop=True)`
is a no-op here). -/
def sortBySymbol (df : DataFrame) : DataFrame :=
  ⟨df.cols, List.insertionSort symLe df.rows⟩

/-- `load_all_data()` (project.py lines 73-76), parametrised by the two
externally fetched tables (the Wikipedia constituents table and the ESG score
file): `pd.merge(snp_data, esg_scores, on='Symbol').sort_values(by="Symbol")
.reset_index(drop=True)`. -/
def load_all_data (snp esg : DataFrame) : Except String DataFrame :=
  match mergeOn snp esg "Symbol" with
  | .error e => .error e
  | .ok m => .ok (sortBySymbol m)

theorem strLeAux_total (a : List Char) : ∀ b, strLeAux a b = true ∨ strLeAux b a = true := by
  induction a with
  | nil => intro b; exact Or.inl rfl
  | cons x xs ih =>
    intro b
    cases b with
    | nil => exact Or.inr rfl
    | cons y ys =>
      by_cases h1 : x.toNat < y.toNat
      · left
        simp [strLeAux, h1]
      · by_cases h2 : y.toNat < x.toNat
        · right
          simp [strLeAux, h2]
        · rcases ih ys with h | h
          · left; simp [strLeAux, h1, h2, h]
          · right; simp [strLeAux, h1, h2, h]

theorem strLeAux_trans (a : List Char) : ∀ b c, strLeAux a b = true →
    strLeAux b c = true → strLeAux a c = true := by
  induction a with
  | nil => intro b c h1 h2; rfl
  | cons x xs ih =>
    intro b c h1 h2
    cases b with
    | nil => cases h1
    | cons y ys =>
      cases c with
      | nil => cases h2
      | cons z zs =>
        unfold strLeAux at h1 h2 ⊢
        by_cases hxy : x.toNat < y.toNat
        · by_cases hyz : y.toNat < z.toNat
          · rw [if_pos (lt_trans hxy hyz)]
          · by_cases hzy : z.toNat < y.toNat
            · rw [if_neg hyz, if_pos hzy] at h2; cases h2
            · have hyez : y.toNat = z.toNat :=
                le_antisymm (not_lt.mp hzy) (not_lt.mp hyz)
              rw [if_pos (hyez ▸ hxy)]
        · by_cases hyx : y.toNat < x.toNat
          · rw [if_neg hxy, if_pos hyx] at h1; cases h1
          · have hxey : x.toNat = y.toNat :=
              le_antisymm (not_lt.mp hyx) (not_lt.mp hxy)
            rw [if_neg hxy, if_neg hyx] at h1
            by_cases hyz : y.toNat < z.toNat
            · rw [if_pos (hxey ▸ hyz)]
            · by_cases hzy : z.toNat < y.toNat
              · rw [if_neg hyz, if_pos hzy] at h2; cases h2
              · have hyez : y.toNat = z.toNat :=
                  le_antisymm (not_lt.mp hzy) (not_lt.mp hyz)
                rw [if_neg hyz, if_neg hzy] at h2
                have hxz : ¬ x.toNat < z.toNat := by
                  rw [hxey, hyez]; exact lt_irrefl _
                have hzx : ¬ z.toNat < x.toNat := by
                  rw [hxey, hyez]; exact lt_irrefl _
                rw [if_neg hxz, if_neg hzx]
                exact ih ys zs h1 h2

theorem valLe_total (a b : Val) : valLe a b = true ∨ valLe b a = true := by
  cases a with
  | str sa =>
    cases b with
    | str sb => exact strLeAux_total sa.data sb.data
    | num qb => left; rfl
  | num qa =>
    cases b with
    | str sb => right; rfl
    | num qb =>
      rcases le_total qa qb with h | h
      · left; unfold valLe; exact decide_eq_true h
      · right; unfold valLe; exact decide_eq_true h

theorem valLe_trans (a b c : Val) (h1 : valLe a b = true)
    (h2 : valLe b c = true) : valLe a c = true := by
  cases a with
  | str sa =>
    cases c with
    | str sc =>
      cases b with
      | str sb => exact strLeAux_trans sa.data sb.data sc.data h1 h2
      | num qb => cases h2
    | num qc => rfl
  | num qa =>
    cases b with
    | str sb => cases h1
    | num qb =>
      cases c with
      | str sc => cases h2
      | num qc =>
        unfold valLe at h1 h2 ⊢
        exact decide_eq_true (le_trans (of_decide_eq_true h1) (of_decide_eq_true h2))

theorem cellLe_total (a b : Cell) : cellLe a b = true ∨ cellLe b a = true := by
  cases a with
  | none => cases b with
    | none => left; rfl
    | some vb => right; rfl
  | some va =>
    cases b with
    | none => left; rfl
    | some vb => exact valLe_total va vb

theorem cellLe_trans (a b c : Cell) (h1 : cellLe a b = true)
    (h2 : cellLe b c = true) : cellLe a c = true := by
  cases a with
  | none =>
    cases b with
    | none => exact h2
    | some vb => cases h1
  | some va =>
    cases c with
    | none => rfl
    | some vc =>
      cases b with
      | none => cases h2
      | some vb => exact valLe_trans va vb vc h1 h2

instance : IsTotal Row symLe :=
  ⟨fun a b => cellLe_total (cellOf a "Symbol") (cellOf b "Symbol")⟩

instance : IsTrans Row symLe :=
  ⟨fun a b c => cellLe_trans (cellOf a "Symbol") (cellOf b "Symbol")
      (cellOf c "Symbol")⟩

/-- Characterisation of membership in the inner join. -/
theorem mem_joinRows (key : String) (ls rs : List Row) (r : Row) :
    r ∈ joinRows key ls rs ↔
      ∃ l ∈ ls, ∃ rr ∈ rs,
        cellOf rr key = cellOf l key ∧ r = mergeRow key l rr := by
  induction ls with
  | nil => simp [joinRows]
  | cons l ls ih =>
    simp only [joinRows, List.mem_append, List.mem_map, List.mem_filter,
      decide_eq_true_eq, ih, List.mem_cons]
    constructor
    · rintro (⟨rr, ⟨hrr, heq⟩, hr⟩ | ⟨l', hl', rr, hrr, heq, hr⟩)
      · exact ⟨l, Or.inl rfl, rr, hrr, heq, hr.symm⟩
      · exact ⟨l', Or.inr hl', rr, hrr, heq, hr⟩
    · rintro ⟨l', hl', rr, hrr, heq, hr⟩
      rcases hl' with h | h
      · subst h
        exact Or.inl ⟨rr, ⟨hrr, heq⟩, hr.symm⟩
      · exact Or.inr ⟨l', h, rr, hrr, heq, hr⟩

/-- C7: `load_all_data` inner-joins the constituents table and the score
table on `Symbol` and returns the result sorted by `Symbol`; if either source
lacks the join key the `KeyError` propagates (no recovery, no retry).  The
join is characterised completely: the output rows are exactly the merged
pairs of rows sharing a `Symbol` cell, in sorted order. -/
theorem load_all_data_spec :
    ∀ snp esg : DataFrame,
      (("Symbol" ∉ snp.cols ∨ "Symbol" ∉ esg.cols) →
        ∃ e, load_all_data snp esg = .error e)
      ∧ (∀ df', load_all_data snp esg = .ok df' →
          List.Sorted symLe df'.rows
          ∧ (∀ r ∈ df'.rows, ∃ l ∈ snp.rows, ∃ rr ∈ esg.rows,
              cellOf rr "Symbol" = cellOf l "Symbol" ∧ r = mergeRow "Symbol" l rr)
          ∧ (∀ l ∈ snp.rows, ∀ rr ∈ esg.rows,
              cellOf rr "Symbol" = cellOf l "Symbol" →
              mergeRow "Symbol" l rr ∈ df'.rows)) := by
  intro snp esg
  constructor
  · intro hmiss
    unfold load_all_data mergeOn
    have hcond : (snp.cols.contains "Symbol" && esg.cols.contains "Symbol")
        = false := by
      rcases hmiss with h | h
      · have : snp.cols.contains "Symbol" = false := by simpa using h
        rw [this, Bool.false_and]
      · have : esg.cols.contains "Symbol" = false := by simpa using h
        rw [this, Bool.and_false]
    rw [if_neg (by rw [hcond]; exact Bool.false_ne_true)]
    exact ⟨"KeyError: merge", rfl⟩
  · intro df' h
    unfold load_all_data at h
    cases hm : mergeOn snp esg "Symbol" with
    | error e => rw [hm] at h; cases h
    | ok m =>
      rw [hm] at h
      have hdf : df' = sortBySymbol m := ((Except.ok.injEq _ _).mp h).symm
      have hrows : m.rows = joinRows "Symbol" snp.rows esg.rows := by
        unfold mergeOn at hm
        by_cases hc : (snp.cols.contains "Symbol" && esg.cols.contains "Symbol")
            = true
        · rw [if_pos hc] at hm
          have := ((Except.ok.injEq _ _).mp hm).symm
          rw [this]
        · rw [if_neg hc] at hm; cases hm
      have hperm : df'.rows.Perm m.rows := by
        rw [hdf]
        exact List.perm_insertionSort symLe m.rows
      refine ⟨?_, ?_, ?_⟩
      · rw [hdf]
        exact List.sorted_insertionSort symLe m.rows
      · intro r hr
        have : r ∈ m.rows := hperm.mem_iff.mp hr
        rw [hrows] at this
        exact (mem_joinRows "Symbol" snp.rows esg.rows r).mp this
      · intro l hl rr hrr heq
        have : mergeRow "Symbol" l rr ∈ m.rows := by
          rw [hrows]
          exact (mem_joinRows "Symbol" snp.rows esg.rows _).mpr
            ⟨l, hl, rr, hrr, heq, rfl⟩
        exact hperm.mem_iff.mpr this

end UniverseLoader

section UniverseLoaderExamples

/-- Example constituents table (unsorted: B before A). -/
def snp0 : DataFrame :=
  ⟨["Symbol", "GICS Sub-Industry"],
   [[("Symbol", some (Val.str "B")), ("GICS Sub-Industry", some (Val.str "Y"))],
    [("Symbol", some (Val.str "A")), ("GICS Sub-Industry", some (Val.str "X"))]]⟩

/-- Example ESG score table. -/
def esg0 : DataFrame :=
  ⟨["Symbol", "esg_score"],
   [[("Symbol", some (Val.str "A")), ("esg_score", some (Val.num 90))],
    [("Symbol", some (Val.str "B")), ("esg_score", some (Val.num 70))]]⟩

/-- The merged and symbol-sorted universe built from `snp0` and `esg0`. -/
def merged0 : DataFrame :=
  ⟨["Symbol", "GICS Sub-Industry", "esg_score"],
   [[("Symbol", some (Val.str "A")), ("GICS Sub-Industry", some (Val.str "X")),
     ("esg_score", some (Val.num 90))],
    [("Symbol", some (Val.str "B")), ("GICS Sub-Industry", some (Val.str "Y")),
     ("esg_score", some (Val.num 70))]]⟩

example : load_all_data snp0 esg0 = .ok merged0 := by rfl

/-- A table keyed by `Ticker` instead of `Symbol`. -/
def noSym0 : DataFrame := ⟨["Ticker"], []⟩

/-- Witness for C7: a concrete run is sorted, and a concrete run with the
join key absent fails. -/
theorem load_all_data_spec_witness :
    List.Sorted symLe merged0.rows ∧ ∃ e, load_all_data noSym0 esg0 = .error e :=
  ⟨((load_all_data_spec snp0 esg0).2 merged0 (by rfl)).1,
   (load_all_data_spec noSym0 esg0).1 (Or.inl (by decide))⟩

end UniverseLoaderExamples

section OptimizerAdapter

/-- Modelled from the spec: the efficient-frontier solver (`pypfopt`'s `CLA`)
is an external library, not code of this repository.  `run_ef_model` builds
it from the price table's annualised returns and sample covariance with the
user-supplied bounds `weight_bounds=(min_wt, max_wt)`.  Per the spec, each
extracted solution is a weight vector over the assets of the price table —
its keys are columns of that table — with every weight inside the bounds.
The solver is embedded as a record carrying its two solutions together with
that documented contract. -/
structure CLA (priceCols : List String) (min_wt max_wt : ℚ) where
  maxSharpeW : List (String × ℚ)
  minVolW : List (String × ℚ)
  maxSharpe_keys : ∀ p ∈ maxSharpeW, p.1 ∈ priceCols
  minVol_keys : ∀ p ∈ minVolW, p.1 ∈ priceCols
  maxSharpe_bounds : ∀ p ∈ maxSharpeW, min_wt ≤ p.2 ∧ p.2 ≤ max_wt
  minVol_bounds : ∀ p ∈ minVolW, min_wt ≤ p.2 ∧ p.2 ≤ max_wt

/-- The non-zero weights surfaced to the user (project.py line 132):
`{key: value for (key, value) in asset_weights.items() if value != 0}`. -/
def clean_wts (w : List (String × ℚ)) : List (String × ℚ) :=
  w.filter (fun p => decide (p.2 ≠ 0))

/-- What `run_ef_model` produces: the full weight vector it returns and the
non-zero weights it surfaces. -/
structure EFOut where
  asset_weights : List (String × ℚ)
  surfaced : List (String × ℚ)
deriving DecidableEq, Repr

/-- `run_ef_model(cleaned_adj_close, weight_bounds, objective_fn,
risk_free_rate)` (project.py lines 112-147): dispatch on the objective string
to the solver's max-Sharpe or min-volatility solution and surface the
non-zero weights.  Any other objective leaves `asset_weights` unbound in the
source (a `NameError`), modelled as `none`; the plotting and the performance
summary are presentation-only. -/
def run_ef_model {pcols : List String} {mn mx : ℚ} (cla : CLA pcols mn mx)
    (objective : String) : Option EFOut :=
  if objective = "Max Sharpe" then
    some ⟨cla.maxSharpeW, clean_wts cla.maxSharpeW⟩
  else if objective = "Min Vol" then
    some ⟨cla.minVolW, clean_wts cla.minVolW⟩
  else
    none

/-- C5: the surfaced weight dictionary holds exactly the non-zero entries of
the solver's weight vector, and every ticker in it is a column of the input
price table. -/
theorem run_ef_model_surfaced_weights :
    ∀ (pt : DataFrame) (mn mx : ℚ) (cla : CLA pt.cols mn mx)
      (objective : String) (out : EFOut),
      run_ef_model cla objective = some out →
      (∀ p : String × ℚ, p ∈ out.surfaced ↔ p ∈ out.asset_weights ∧ p.2 ≠ 0)
      ∧ (∀ p ∈ out.surfaced, p.1 ∈ pt.cols) := by
  intro pt mn mx cla objective out h
  unfold run_ef_model at h
  by_cases h1 : objective = "Max Sharpe"
  · rw [if_pos h1] at h
    cases h
    constructor
    · intro p
      unfold clean_wts
      simp [List.mem_filter]
    · intro p hp
      unfold clean_wts at hp
      exact cla.maxSharpe_keys p (List.mem_filter.mp hp).1
  · rw [if_neg h1] at h
    by_cases h2 : objective = "Min Vol"
    · rw [if_pos h2] at h
      cases h
      constructor
      · intro p
        unfold clean_wts
        simp [List.mem_filter]
      · intro p hp
        unfold clean_wts at hp
        exact cla.minVol_keys p (List.mem_filter.mp hp).1
    · rw [if_neg h2] at h
      cases h

/-- C6: every weight returned by `run_ef_model` lies within the
user-supplied bounds. -/
theorem run_ef_model_weight_bounds :
    ∀ (pcols : List String) (mn mx : ℚ) (cla : CLA pcols mn mx)
      (objective : String) (out : EFOut),
      run_ef_model cla objective = some out →
      ∀ p ∈ out.asset_weights, mn ≤ p.2 ∧ p.2 ≤ mx := by
  intro pcols mn mx cla objective out h
  unfold run_ef_model at h
  by_cases h1 : objective = "Max Sharpe"
  · rw [if_pos h1] at h
    cases h
    exact cla.maxSharpe_bounds
  · rw [if_neg h1] at h
    by_cases h2 : objective = "Min Vol"
    · rw [if_pos h2] at h
      cases h
      exact cla.minVol_bounds
    · rw [if_neg h2] at h
      cases h

/-- C8: `run_ef_model` dispatches on the selected objective: `"Max Sharpe"`
yields the solver's maximum-Sharpe solution and `"Min Vol"` the solver's
minimum-volatility solution. -/
theorem run_ef_model_objective_dispatch :
    ∀ (pcols : List String) (mn mx : ℚ) (cla : CLA pcols mn mx),
      run_ef_model cla "Max Sharpe"
          = some ⟨cla.maxSharpeW, clean_wts cla.maxSharpeW⟩
      ∧ run_ef_model cla "Min Vol"
          = some ⟨cla.minVolW, clean_wts cla.minVolW⟩ := by
  intro pcols mn mx cla
  exact ⟨rfl, rfl⟩

/-- A one-ticker price table for the optimizer witnesses. -/
def pt1 : DataFrame := ⟨["AAA"], [[("AAA", some (Val.num 12))]]⟩

/-- A concrete solver outcome over `pt1` satisfying the modelled contract. -/
def cla1 : CLA pt1.cols 0 1 where
  maxSharpeW := [("AAA", 1)]
  minVolW := [("AAA", 1)]
  maxSharpe_keys := by decide
  minVol_keys := by decide
  maxSharpe_bounds := by decide
  minVol_bounds := by decide

/-- Witness for C5: the surfaced ticker of the concrete run is a column of
the price table. -/
theorem run_ef_model_surfaced_weights_witness : "AAA" ∈ pt1.cols :=
  (run_ef_model_surfaced_weights pt1 0 1 cla1 "Max Sharpe"
      ⟨cla1.maxSharpeW, clean_wts cla1.maxSharpeW⟩ rfl).2 ("AAA", 1) (by decide)

/-- Witness for C6: the concrete weight 1 lies within the bounds [0, 1]. -/
theorem run_ef_model_weight_bounds_witness : (0 : ℚ) ≤ 1 ∧ (1 : ℚ) ≤ 1 :=
  run_ef_model_weight_bounds pt1.cols 0 1 cla1 "Min Vol"
    ⟨cla1.minVolW, clean_wts cla1.minVolW⟩ rfl ("AAA", 1) (by decide)

end OptimizerAdapter
